import Mathlib

/-!
# Verification of `span_reprs.py` (TTIC-reproduce)

A shallow embedding of `src/encoders/pretrained_transformers/span_reprs.py`:
five span-representation pooling variants (mean, max, diff_sum, endpoint,
attn), an optional learned linear projection applied before pooling, and a
factory `get_span_module` dispatching on a method string.

Tensors are embedded as functions from indices to scalars: an encoded input
of shape `[B, seq_len, D]` becomes `ℕ → ℕ → ℕ → α` (batch, position,
channel); start/end index vectors become `ℕ → ℕ`.  The exact variants are
proved over `ℚ`; the attention variant, whose softmax uses the
transcendental `exp`, is proved over `ℝ` with the exponential passed as an
explicit function so the definitions stay computable.

Python's `raise NotImplementedError` and attribute lookups that can fail
are embedded with `Except String`.
-/

open Finset

/-- Parameters of a `torch.nn.Linear` layer: a weight matrix and a bias
vector, embedded as total functions on `ℕ` indices. -/
structure LinearParams (α : Type) where
  weight : ℕ → ℕ → α
  bias : ℕ → α

/-- Application of `nn.Linear` to a vector: `y j = Σ_{d < inDim} W j d * x d + b j`. -/
def LinearParams.apply {α : Type} [CommRing α] (L : LinearParams α) (inDim : ℕ)
    (x : ℕ → α) : ℕ → α :=
  fun j => (∑ d in Finset.range inDim, L.weight j d * x d) + L.bias j

/-- The attributes `SpanRepr.__init__` assigns on every variant:
`input_dim`, `proj_dim`, `use_proj`, and (when `use_proj`) the projection
layer's parameters.  The projection parameters are carried unconditionally;
the code only reads `self.proj` behind `if self.use_proj`. -/
structure SpanReprState (α : Type) where
  input_dim : ℕ
  proj_dim : ℕ
  use_proj : Bool
  proj : LinearParams α

/-- `SpanRepr.__init__(input_dim, use_proj=False, proj_dim=256)`.  The
projection layer's (randomly initialized, trainable) parameters are made an
explicit argument. -/
def SpanRepr.init {α : Type} (projP : LinearParams α) (input_dim : ℕ)
    (use_proj : Bool) (proj_dim : ℕ) : SpanReprState α :=
  { input_dim := input_dim, proj_dim := proj_dim, use_proj := use_proj, proj := projP }

/-- The attributes of an `AttnSpanRepr` object: the shared `SpanRepr`
attributes, the `attention_params` linear layer, and the `use_endpoints`
attribute read by `get_output_dim`.  No constructor or method ever assigns
`use_endpoints`, so it is modelled as `Option Bool` and every constructed
object carries `none` (reading it raises `AttributeError`). -/
structure AttnState (α : Type) extends SpanReprState α where
  attention_params : LinearParams α
  use_endpoints : Option Bool

/-- `AttnSpanRepr.__init__`: runs `SpanRepr.__init__`, then creates the
`attention_params` layer (`nn.Linear(input_dim, 1)`, with `input_dim`
rebound to `proj_dim` when `use_proj`).  It never assigns `use_endpoints`. -/
def AttnSpanRepr.init {α : Type} (projP attnP : LinearParams α) (input_dim : ℕ)
    (use_proj : Bool) (proj_dim : ℕ) : AttnState α :=
  { toSpanReprState := SpanRepr.init projP input_dim use_proj proj_dim,
    attention_params := attnP,
    use_endpoints := none }

/-- A constructed span-representation object: one of the five variants,
carrying the attributes its `__init__` assigned. -/
inductive SpanModule (α : Type) where
  | mean (st : SpanReprState α)
  | max (st : SpanReprState α)
  | diff_sum (st : SpanReprState α)
  | endpoint (st : SpanReprState α)
  | attn (st : AttnState α)

/-- `get_span_module(input_dim, method="avg", use_proj=False, proj_dim=256)`:
dispatches on `method` over the five recognized tags and otherwise raises
`NotImplementedError`.  The trainable parameters the constructors would
randomly initialize are explicit arguments `projP`, `attnP`. -/
def get_span_module {α : Type} (projP attnP : LinearParams α) (input_dim : ℕ)
    (method : String) (use_proj : Bool) (proj_dim : ℕ) :
    Except String (SpanModule α) :=
  if method = "mean" then
    .ok (.mean (SpanRepr.init projP input_dim use_proj proj_dim))
  else if method = "max" then
    .ok (.max (SpanRepr.init projP input_dim use_proj proj_dim))
  else if method = "diff_sum" then
    .ok (.diff_sum (SpanRepr.init projP input_dim use_proj proj_dim))
  else if method = "endpoint" then
    .ok (.endpoint (SpanRepr.init projP input_dim use_proj proj_dim))
  else if method = "attn" then
    .ok (.attn (AttnSpanRepr.init projP attnP input_dim use_proj proj_dim))
  else
    .error "NotImplementedError"

/-- `get_span_module(input_dim)` with every keyword argument omitted:
Python fills in the declared defaults `method="avg"`, `use_proj=False`,
`proj_dim=256`. -/
def get_span_module_defaults {α : Type} (projP attnP : LinearParams α)
    (input_dim : ℕ) : Except String (SpanModule α) :=
  get_span_module projP attnP input_dim "avg" false 256

/-- `MeanSpanRepr.get_output_dim`. -/
def MeanSpanRepr.get_output_dim {α : Type} (st : SpanReprState α) : ℕ :=
  if st.use_proj then st.proj_dim else st.input_dim

/-- `MaxSpanRepr.get_output_dim`. -/
def MaxSpanRepr.get_output_dim {α : Type} (st : SpanReprState α) : ℕ :=
  if st.use_proj then st.proj_dim else st.input_dim

/-- `EndPointRepr.get_output_dim`. -/
def EndPointRepr.get_output_dim {α : Type} (st : SpanReprState α) : ℕ :=
  if st.use_proj then 2 * st.proj_dim else 2 * st.input_dim

/-- `DiffSumSpanRepr.get_output_dim`. -/
def DiffSumSpanRepr.get_output_dim {α : Type} (st : SpanReprState α) : ℕ :=
  if st.use_proj then 2 * st.proj_dim else 2 * st.input_dim

/-- `AttnSpanRepr.get_output_dim`: branches on `self.use_endpoints`, an
attribute nothing ever assigns, so the lookup itself can fail. -/
def AttnSpanRepr.get_output_dim {α : Type} (st : AttnState α) : Except String ℕ :=
  match st.use_endpoints with
  | none => .error "AttributeError: use_endpoints"
  | some ue =>
    if ¬ ue then
      if st.use_proj then .ok st.proj_dim else .ok st.input_dim
    else
      if st.use_proj then .ok (3 * st.proj_dim) else .ok (3 * st.input_dim)

/-- Dispatching `get_output_dim()` on a constructed object.  Only the
attention variant can fail (its method reads the missing attribute). -/
def SpanModule.get_output_dim {α : Type} : SpanModule α → Except String ℕ
  | .mean st => .ok (MeanSpanRepr.get_output_dim st)
  | .max st => .ok (MaxSpanRepr.get_output_dim st)
  | .diff_sum st => .ok (DiffSumSpanRepr.get_output_dim st)
  | .endpoint st => .ok (EndPointRepr.get_output_dim st)
  | .attn st => AttnSpanRepr.get_output_dim st

/-- `get_span_module` followed by `get_output_dim()` on the result. -/
def factory_output_dim {α : Type} (projP attnP : LinearParams α) (input_dim : ℕ)
    (method : String) (use_proj : Bool) (proj_dim : ℕ) : Except String ℕ :=
  (get_span_module projP attnP input_dim method use_proj proj_dim).bind
    SpanModule.get_output_dim

set_option linter.unusedVariables false in
/-- Modelled from the spec: `get_span_mask` is imported from `utils`, a file
not present in the repository snapshot; §4.1 of the spec gives its contract:
`mask[b,p] = 1` iff `start_ids[b] <= p <= end_ids[b]`, else 0, for positions
`p` in `[0, seq_len)` (entries at `p ≥ seq_len` do not exist in the tensor
and are never consulted by any caller).  The `seq_len` argument mirrors the
Python signature. -/
def get_span_mask {α : Type} [Zero α] [One α] (start_ids end_ids : ℕ → ℕ)
    (seq_len : ℕ) : ℕ → ℕ → α :=
  fun b p => if start_ids b ≤ p ∧ p ≤ end_ids b then 1 else 0

/-- The token vectors a variant actually pools: `self.proj(encoded_input)`
when `use_proj`, otherwise `encoded_input` itself. -/
def SpanReprState.projected {α : Type} [CommRing α] (st : SpanReprState α)
    (encoded_input : ℕ → ℕ → ℕ → α) : ℕ → ℕ → ℕ → α :=
  fun b p => if st.use_proj then st.proj.apply st.input_dim (encoded_input b p)
             else encoded_input b p

/-- The channel width of the pooled vectors: `proj_dim` when `use_proj`,
else `input_dim`. -/
def SpanReprState.pooled_dim {α : Type} (st : SpanReprState α) : ℕ :=
  if st.use_proj then st.proj_dim else st.input_dim

/-- `MeanSpanRepr.forward`: multiply the (optionally projected) input by the
span mask, sum over the sequence axis, divide by the span length
`end - start + 1` (an integer difference cast to float). -/
def MeanSpanRepr.forward {α : Type} [Field α] (st : SpanReprState α)
    (encoded_input : ℕ → ℕ → ℕ → α) (seq_len : ℕ)
    (start_ids end_ids : ℕ → ℕ) : ℕ → ℕ → α :=
  fun b d =>
    let enc := st.projected encoded_input
    let span_masks : ℕ → ℕ → α := get_span_mask start_ids end_ids seq_len
    (∑ p in Finset.range seq_len, enc b p d * span_masks b p) /
      ((end_ids b : α) - (start_ids b : α) + 1)

/-- `torch.max(t, dim=1)[0]` along an axis of length `n`, as a fold.
`torch.max` raises on an empty axis; for `n = 0` this returns the junk
value `f 0`, a case no caller reaches. -/
def reduce_max {α : Type} [LinearOrder α] (n : ℕ) (f : ℕ → α) : α :=
  (List.range n).foldl (fun acc p => Max.max acc (f p)) (f 0)

/-- `MaxSpanRepr.forward`: mask out-of-span positions down to `-1e10`
(`x * mask - 1e10 * (1 - mask)`), then take the max over the sequence axis. -/
def MaxSpanRepr.forward {α : Type} [Field α] [LinearOrder α] (st : SpanReprState α)
    (encoded_input : ℕ → ℕ → ℕ → α) (seq_len : ℕ)
    (start_ids end_ids : ℕ → ℕ) : ℕ → ℕ → α :=
  fun b d =>
    let enc := st.projected encoded_input
    let span_masks : ℕ → ℕ → α := get_span_mask start_ids end_ids seq_len
    reduce_max seq_len
      (fun p => enc b p d * span_masks b p - 10 ^ 10 * (1 - span_masks b p))

/-- `EndPointRepr.forward`: concatenate, along the channel axis, the
(optionally projected) vector at `start_ids[b]` with the one at
`end_ids[b]`.  Concatenation of two width-`pooled_dim` tensors is embedded
by splitting the output channel index at `pooled_dim`. -/
def EndPointRepr.forward {α : Type} [CommRing α] (st : SpanReprState α)
    (encoded_input : ℕ → ℕ → ℕ → α)
    (start_ids end_ids : ℕ → ℕ) : ℕ → ℕ → α :=
  fun b j =>
    let enc := st.projected encoded_input
    if j < st.pooled_dim then enc b (start_ids b) j
    else enc b (end_ids b) (j - st.pooled_dim)

/-- `DiffSumSpanRepr.forward`: concatenate `vec[end] - vec[start]` with
`vec[end] + vec[start]` along the channel axis. -/
def DiffSumSpanRepr.forward {α : Type} [CommRing α] (st : SpanReprState α)
    (encoded_input : ℕ → ℕ → ℕ → α)
    (start_ids end_ids : ℕ → ℕ) : ℕ → ℕ → α :=
  fun b j =>
    let enc := st.projected encoded_input
    if j < st.pooled_dim then
      enc b (end_ids b) j - enc b (start_ids b) j
    else
      enc b (end_ids b) (j - st.pooled_dim) + enc b (start_ids b) (j - st.pooled_dim)

/-- The scalar attention score `self.attention_params(encoded_input)[b, p]`:
the single-output linear layer applied to the (optionally projected) token
vector, whose width is `pooled_dim`. -/
def AttnSpanRepr.score {α : Type} [CommRing α] (st : AttnState α)
    (encoded_input : ℕ → ℕ → ℕ → α) : ℕ → ℕ → α :=
  fun b p =>
    st.attention_params.apply st.toSpanReprState.pooled_dim
      (st.toSpanReprState.projected encoded_input b p) 0

/-- `nn.functional.softmax` along an axis of length `n`, with the
exponential passed as an explicit function (instantiated with `Real.exp`
in the theorems, keeping the definition computable for computable fields). -/
def softmax {α : Type} [Field α] (exp : α → α) (n : ℕ) (logits : ℕ → α) : ℕ → α :=
  fun p => exp (logits p) / ∑ q in Finset.range n, exp (logits q)

/-- The masked attention logits of `AttnSpanRepr.forward`:
`attention_params(encoded_input) + (1 - span_mask) * (-1e10)`. -/
def AttnSpanRepr.attn_logits {α : Type} [Field α] (st : AttnState α)
    (encoded_input : ℕ → ℕ → ℕ → α) (seq_len : ℕ)
    (start_ids end_ids : ℕ → ℕ) : ℕ → ℕ → α :=
  fun b p =>
    let span_mask : ℕ → ℕ → α := get_span_mask start_ids end_ids seq_len
    AttnSpanRepr.score st encoded_input b p + (1 - span_mask b p) * (-(10 ^ 10))

/-- The attention weights of `AttnSpanRepr.forward`: softmax of the masked
logits over the sequence axis. -/
def AttnSpanRepr.attention_wts {α : Type} [Field α] (exp : α → α) (st : AttnState α)
    (encoded_input : ℕ → ℕ → ℕ → α) (seq_len : ℕ)
    (start_ids end_ids : ℕ → ℕ) : ℕ → ℕ → α :=
  fun b =>
    softmax exp seq_len (AttnSpanRepr.attn_logits st encoded_input seq_len start_ids end_ids b)

/-- `AttnSpanRepr.forward`: the weighted sum of the (optionally projected)
token vectors under the attention weights. -/
def AttnSpanRepr.forward {α : Type} [Field α] (exp : α → α) (st : AttnState α)
    (encoded_input : ℕ → ℕ → ℕ → α) (seq_len : ℕ)
    (start_ids end_ids : ℕ → ℕ) : ℕ → ℕ → α :=
  fun b d =>
    ∑ p in Finset.range seq_len,
      AttnSpanRepr.attention_wts exp st encoded_input seq_len start_ids end_ids b p *
        st.toSpanReprState.projected encoded_input b p d

/-! ### Concrete fixtures used by witnesses and counterexamples -/

/-- A linear layer with all-zero weight and bias. -/
def zeroLin {α : Type} [Zero α] : LinearParams α :=
  { weight := fun _ _ => 0, bias := fun _ => 0 }

/-- A linear layer with all-one weight and zero bias: on width-1 input it
returns the input scalar itself. -/
def oneLin {α : Type} [Zero α] [One α] : LinearParams α :=
  { weight := fun _ _ => 1, bias := fun _ => 0 }

/-- A width-1, projection-free `SpanRepr` state. -/
def st1 {α : Type} [Zero α] : SpanReprState α :=
  { input_dim := 1, proj_dim := 1, use_proj := false, proj := zeroLin }

/-- A width-1, projection-free `AttnSpanRepr` state whose attention layer
passes the single input channel through unchanged. -/
def attnSt1 {α : Type} [Zero α] [One α] : AttnState α :=
  { toSpanReprState := st1, attention_params := oneLin, use_endpoints := none }

/-- Encoded input whose token at position 0 is `-2e10` on every channel and
all other tokens are `0`: a value below the `-1e10` masking floor. -/
def belowFloorEnc {α : Type} [Field α] : ℕ → ℕ → ℕ → α :=
  fun _ p _ => if p = 0 then -(2 * 10 ^ 10) else 0

/-- Encoded input whose token at position 0 is `0` and every other token is
`1e10 + 20` on each channel: under a pass-through attention score this puts
an out-of-span logit 20 above an in-span one even after the `-1e10` mask. -/
def hugeScoreEnc {α : Type} [Field α] : ℕ → ℕ → ℕ → α :=
  fun _ p _ => if p = 0 then 0 else 10 ^ 10 + 20

/-! ### Helper lemmas -/

/-- Multiplying by the span mask and summing over the whole sequence axis
is summing over the inclusive span. -/
theorem sum_mul_span_mask {α : Type} [CommRing α] (s e : ℕ → ℕ) (n b : ℕ)
    (f : ℕ → α) (h2 : e b < n) :
    ∑ p in Finset.range n, f p * get_span_mask s e n b p
      = ∑ p in Finset.Icc (s b) (e b), f p := by
  simp only [get_span_mask, mul_ite, mul_one, mul_zero]
  rw [← Finset.sum_filter]
  congr 1
  ext p
  simp only [Finset.mem_filter, Finset.mem_range, Finset.mem_Icc]
  omega

/-- The fold embedding `torch.max(·, dim=1)` agrees with `Finset.sup'` on a
nonempty axis. -/
theorem reduce_max_eq_sup' {α : Type} [LinearOrder α] (n : ℕ) (hn : 0 < n)
    (f : ℕ → α) :
    reduce_max n f = (Finset.range n).sup' (Finset.nonempty_range_iff.mpr hn.ne') f := by
  induction n with
  | zero => exact absurd hn (lt_irrefl 0)
  | succ m ih =>
    rcases Nat.eq_zero_or_pos m with h0 | hm
    · subst h0
      simp [reduce_max, List.range_succ, Finset.range_one]
    · have step : reduce_max (m + 1) f = Max.max (reduce_max m f) (f m) := by
        simp [reduce_max, List.range_succ]
      apply le_antisymm
      · rw [step, ih hm]
        apply max_le
        · exact Finset.sup'_le _ _ fun p hp =>
            Finset.le_sup' f (Finset.mem_range.mpr
              (lt_trans (Finset.mem_range.mp hp) (Nat.lt_succ_self m)))
        · exact Finset.le_sup' f (Finset.mem_range.mpr (Nat.lt_succ_self m))
      · apply Finset.sup'_le
        intro p hp
        rw [step, ih hm]
        rcases Nat.lt_succ_iff_lt_or_eq.mp (Finset.mem_range.mp hp) with h | h
        · exact le_trans (Finset.le_sup' f (Finset.mem_range.mpr h)) (le_max_left _ _)
        · subst h
          exact le_max_right _ _

/-- `e^20` exceeds one million. -/
theorem million_lt_exp_twenty : (10 : ℝ) ^ 6 < Real.exp 20 := by
  have h1 : (2.7 : ℝ) ≤ Real.exp 1 := by
    have := Real.exp_one_gt_d9
    norm_num at this ⊢
    linarith
  have h2 : Real.exp 20 = Real.exp 1 ^ 20 := by
    rw [← Real.exp_nat_mul]
    norm_num
  have h3 : (2.7 : ℝ) ^ 20 ≤ Real.exp 1 ^ 20 := pow_le_pow_left₀ (by norm_num) h1 20
  have h4 : (10 : ℝ) ^ 6 < (2.7 : ℝ) ^ 20 := by norm_num
  rw [h2]
  linarith

/-- `e^(-20)` is below `1e-6`. -/
theorem exp_neg_twenty_lt : Real.exp (-20) < 1 / 10 ^ 6 := by
  rw [Real.exp_neg, inv_eq_one_div]
  exact one_div_lt_one_div_of_lt (by norm_num) million_lt_exp_twenty

/-! ### Claim theorems -/

/-- C1: every method string outside `{"mean", "max", "diff_sum", "endpoint",
"attn"}` makes `get_span_module` raise `NotImplementedError` at construction
time, and each of the five recognized tags invokes exactly the corresponding
variant constructor and returns the constructed object. -/
theorem C1_factory_dispatch {α : Type} (projP attnP : LinearParams α)
    (input_dim proj_dim : ℕ) (use_proj : Bool) (method : String)
    (h : method ∉ (["mean", "max", "diff_sum", "endpoint", "attn"] : List String)) :
    get_span_module projP attnP input_dim method use_proj proj_dim
        = .error "NotImplementedError"
    ∧ get_span_module projP attnP input_dim "mean" use_proj proj_dim
        = .ok (.mean (SpanRepr.init projP input_dim use_proj proj_dim))
    ∧ get_span_module projP attnP input_dim "max" use_proj proj_dim
        = .ok (.max (SpanRepr.init projP input_dim use_proj proj_dim))
    ∧ get_span_module projP attnP input_dim "diff_sum" use_proj proj_dim
        = .ok (.diff_sum (SpanRepr.init projP input_dim use_proj proj_dim))
    ∧ get_span_module projP attnP input_dim "endpoint" use_proj proj_dim
        = .ok (.endpoint (SpanRepr.init projP input_dim use_proj proj_dim))
    ∧ get_span_module projP attnP input_dim "attn" use_proj proj_dim
        = .ok (.attn (AttnSpanRepr.init projP attnP input_dim use_proj proj_dim)) := by
  refine ⟨?_, rfl, rfl, rfl, rfl, rfl⟩
  simp only [List.mem_cons, List.not_mem_nil, or_false, not_or] at h
  obtain ⟨h1, h2, h3, h4, h5⟩ := h
  simp [get_span_module, h1, h2, h3, h4, h5]

/-- Witness for C1 at the unrecognized method string `"bogus"`. -/
theorem C1_factory_dispatch_witness :
    "bogus" ∉ (["mean", "max", "diff_sum", "endpoint", "attn"] : List String)
    ∧ get_span_module (zeroLin : LinearParams ℚ) zeroLin 4 "bogus" false 256
        = .error "NotImplementedError" :=
  ⟨by decide, (C1_factory_dispatch zeroLin zeroLin 4 256 false "bogus" (by decide)).1⟩

/-- C10: calling `get_span_module(input_dim)` with the method argument
omitted raises `NotImplementedError` for every `input_dim`, because the
default value `"avg"` is not among the five recognized tags. -/
theorem C10_default_method_not_implemented {α : Type} (projP attnP : LinearParams α)
    (input_dim : ℕ) :
    get_span_module_defaults projP attnP input_dim = .error "NotImplementedError"
    ∧ "avg" ∉ (["mean", "max", "diff_sum", "endpoint", "attn"] : List String) :=
  ⟨rfl, by decide⟩

/-- C3: every `AttnSpanRepr` object constructible through the public
interface has a `get_output_dim()` that fails with an attribute-not-found
error on the never-assigned `use_endpoints`. -/
theorem C3_attn_get_output_dim_fails {α : Type} (projP attnP : LinearParams α)
    (input_dim proj_dim : ℕ) (use_proj : Bool) :
    AttnSpanRepr.get_output_dim (AttnSpanRepr.init projP attnP input_dim use_proj proj_dim)
      = .error "AttributeError: use_endpoints" := rfl

/-- C2 counterexample: at `input_dim = 4`, `method = "attn"`, projection
off, `get_output_dim()` on the factory's result is the `use_endpoints`
attribute error, not the table value `.ok 4` the claim asserts. -/
theorem C2_output_dim_counterexample :
    factory_output_dim (zeroLin : LinearParams ℚ) zeroLin 4 "attn" false 256
        = .error "AttributeError: use_endpoints"
    ∧ factory_output_dim (zeroLin : LinearParams ℚ) zeroLin 4 "attn" false 256
        ≠ .ok 4 := by
  have h : factory_output_dim (zeroLin : LinearParams ℚ) zeroLin 4 "attn" false 256
      = .error "AttributeError: use_endpoints" := rfl
  refine ⟨h, ?_⟩
  rw [h]
  intro hc
  cases hc

set_option linter.unusedVariables false in
/-- C2 (amended): for every `input_dim > 0`, the objects returned for
`"mean"`, `"max"`, `"endpoint"` and `"diff_sum"` report the table output
dimensions (`input_dim` or `proj_dim`, doubled for the concatenating
variants); for `"attn"` the `get_output_dim()` call fails with the
`use_endpoints` attribute error instead of returning a dimension. -/
theorem C2_output_dim_amended {α : Type} (projP attnP : LinearParams α)
    (input_dim proj_dim : ℕ) (use_proj : Bool) (hd : 0 < input_dim) :
    factory_output_dim projP attnP input_dim "mean" use_proj proj_dim
        = .ok (if use_proj then proj_dim else input_dim)
    ∧ factory_output_dim projP attnP input_dim "max" use_proj proj_dim
        = .ok (if use_proj then proj_dim else input_dim)
    ∧ factory_output_dim projP attnP input_dim "endpoint" use_proj proj_dim
        = .ok (if use_proj then 2 * proj_dim else 2 * input_dim)
    ∧ factory_output_dim projP attnP input_dim "diff_sum" use_proj proj_dim
        = .ok (if use_proj then 2 * proj_dim else 2 * input_dim)
    ∧ factory_output_dim projP attnP input_dim "attn" use_proj proj_dim
        = .error "AttributeError: use_endpoints" :=
  ⟨rfl, rfl, rfl, rfl, rfl⟩

/-- Witness for the amended C2 at `input_dim = 4`, `proj_dim = 256`,
projection off. -/
theorem C2_output_dim_amended_witness :
    0 < 4
    ∧ (factory_output_dim (zeroLin : LinearParams ℚ) zeroLin 4 "mean" false 256 = .ok 4
      ∧ factory_output_dim (zeroLin : LinearParams ℚ) zeroLin 4 "max" false 256 = .ok 4
      ∧ factory_output_dim (zeroLin : LinearParams ℚ) zeroLin 4 "endpoint" false 256 = .ok 8
      ∧ factory_output_dim (zeroLin : LinearParams ℚ) zeroLin 4 "diff_sum" false 256 = .ok 8
      ∧ factory_output_dim (zeroLin : LinearParams ℚ) zeroLin 4 "attn" false 256
          = .error "AttributeError: use_endpoints") :=
  ⟨by decide, C2_output_dim_amended zeroLin zeroLin 4 256 false (by decide)⟩

set_option linter.unusedVariables false in
/-- C4: on a valid span, `MeanSpanRepr.forward` returns the sum of the
(optionally projected) token vectors over the inclusive span divided by the
span length `end - start + 1`; on a span of length 1 it returns the
(optionally projected) token vector at that position exactly. -/
theorem C4_mean_forward (st : SpanReprState ℚ) (enc : ℕ → ℕ → ℕ → ℚ)
    (seq_len : ℕ) (start_ids end_ids : ℕ → ℕ) (b d : ℕ)
    (h1 : start_ids b ≤ end_ids b) (h2 : end_ids b < seq_len) :
    MeanSpanRepr.forward st enc seq_len start_ids end_ids b d
        = (∑ p in Finset.Icc (start_ids b) (end_ids b), st.projected enc b p d) /
            ((end_ids b : ℚ) - (start_ids b : ℚ) + 1)
    ∧ (start_ids b = end_ids b →
        MeanSpanRepr.forward st enc seq_len start_ids end_ids b d
          = st.projected enc b (start_ids b) d) := by
  have hm : MeanSpanRepr.forward st enc seq_len start_ids end_ids b d
      = (∑ p in Finset.Icc (start_ids b) (end_ids b), st.projected enc b p d) /
          ((end_ids b : ℚ) - (start_ids b : ℚ) + 1) := by
    simp only [MeanSpanRepr.forward]
    rw [sum_mul_span_mask _ _ _ _ _ h2]
  refine ⟨hm, fun hse => ?_⟩
  rw [hm, ← hse]
  simp

/-- Witness for C4 on the span `[1, 2]` of a length-3 sequence whose token
at position `p` carries the value `p` on every channel. -/
theorem C4_mean_forward_witness :
    (1 ≤ 2 ∧ 2 < 3)
    ∧ (MeanSpanRepr.forward (st1 : SpanReprState ℚ) (fun _ p _ => (p : ℚ)) 3
          (fun _ => 1) (fun _ => 2) 0 0
        = (∑ p in Finset.Icc 1 2,
            SpanReprState.projected st1 (fun _ p _ => (p : ℚ)) 0 p 0) /
            ((2 : ℚ) - (1 : ℚ) + 1)) :=
  ⟨⟨by decide, by decide⟩,
    (C4_mean_forward st1 (fun _ p _ => (p : ℚ)) 3 (fun _ => 1) (fun _ => 2) 0 0
      (by decide) (by decide)).1⟩

/-- C6: on every input, `EndPointRepr.forward` concatenates the (optionally
projected) vector at `start_ids[b]` with the one at `end_ids[b]` along the
channel axis, and the variant reports output width `2 * pooled_dim`. -/
theorem C6_endpoint_forward (st : SpanReprState ℚ) (enc : ℕ → ℕ → ℕ → ℚ)
    (start_ids end_ids : ℕ → ℕ) (b j : ℕ) (hj : j < st.pooled_dim) :
    EndPointRepr.forward st enc start_ids end_ids b j
        = st.projected enc b (start_ids b) j
    ∧ EndPointRepr.forward st enc start_ids end_ids b (st.pooled_dim + j)
        = st.projected enc b (end_ids b) j
    ∧ EndPointRepr.get_output_dim st = 2 * st.pooled_dim := by
  refine ⟨?_, ?_, ?_⟩
  · simp only [EndPointRepr.forward]
    rw [if_pos hj]
  · simp only [EndPointRepr.forward]
    rw [if_neg (by omega), Nat.add_sub_cancel_left]
  · unfold EndPointRepr.get_output_dim SpanReprState.pooled_dim
    cases st.use_proj <;> simp

/-- Witness for C6 on the span `[0, 1]` with identity-valued tokens. -/
theorem C6_endpoint_forward_witness :
    0 < (st1 : SpanReprState ℚ).pooled_dim
    ∧ (EndPointRepr.forward (st1 : SpanReprState ℚ) (fun _ p _ => (p : ℚ))
          (fun _ => 0) (fun _ => 1) 0 0
        = SpanReprState.projected st1 (fun _ p _ => (p : ℚ)) 0 0 0
      ∧ EndPointRepr.forward (st1 : SpanReprState ℚ) (fun _ p _ => (p : ℚ))
          (fun _ => 0) (fun _ => 1) 0 (SpanReprState.pooled_dim (st1 : SpanReprState ℚ) + 0)
        = SpanReprState.projected st1 (fun _ p _ => (p : ℚ)) 0 1 0
      ∧ EndPointRepr.get_output_dim (st1 : SpanReprState ℚ)
        = 2 * SpanReprState.pooled_dim (st1 : SpanReprState ℚ)) :=
  ⟨by decide,
    C6_endpoint_forward st1 (fun _ p _ => (p : ℚ)) (fun _ => 0) (fun _ => 1) 0 0 (by decide)⟩

/-- C7: on every input, `DiffSumSpanRepr.forward` concatenates
`vec[end] - vec[start]` with `vec[end] + vec[start]` of the (optionally
projected) token vectors along the channel axis, and the variant reports
output width `2 * pooled_dim`. -/
theorem C7_diff_sum_forward (st : SpanReprState ℚ) (enc : ℕ → ℕ → ℕ → ℚ)
    (start_ids end_ids : ℕ → ℕ) (b j : ℕ) (hj : j < st.pooled_dim) :
    DiffSumSpanRepr.forward st enc start_ids end_ids b j
        = st.projected enc b (end_ids b) j - st.projected enc b (start_ids b) j
    ∧ DiffSumSpanRepr.forward st enc start_ids end_ids b (st.pooled_dim + j)
        = st.projected enc b (end_ids b) j + st.projected enc b (start_ids b) j
    ∧ DiffSumSpanRepr.get_output_dim st = 2 * st.pooled_dim := by
  refine ⟨?_, ?_, ?_⟩
  · simp only [DiffSumSpanRepr.forward]
    rw [if_pos hj]
  · simp only [DiffSumSpanRepr.forward]
    rw [if_neg (by omega), Nat.add_sub_cancel_left]
  · unfold DiffSumSpanRepr.get_output_dim SpanReprState.pooled_dim
    cases st.use_proj <;> simp

/-- Witness for C7 on the span `[0, 1]` with identity-valued tokens. -/
theorem C7_diff_sum_forward_witness :
    0 < (st1 : SpanReprState ℚ).pooled_dim
    ∧ (DiffSumSpanRepr.forward (st1 : SpanReprState ℚ) (fun _ p _ => (p : ℚ))
          (fun _ => 0) (fun _ => 1) 0 0
        = SpanReprState.projected st1 (fun _ p _ => (p : ℚ)) 0 1 0
          - SpanReprState.projected st1 (fun _ p _ => (p : ℚ)) 0 0 0
      ∧ DiffSumSpanRepr.forward (st1 : SpanReprState ℚ) (fun _ p _ => (p : ℚ))
          (fun _ => 0) (fun _ => 1) 0 (SpanReprState.pooled_dim (st1 : SpanReprState ℚ) + 0)
        = SpanReprState.projected st1 (fun _ p _ => (p : ℚ)) 0 1 0
          + SpanReprState.projected st1 (fun _ p _ => (p : ℚ)) 0 0 0
      ∧ DiffSumSpanRepr.get_output_dim (st1 : SpanReprState ℚ)
        = 2 * SpanReprState.pooled_dim (st1 : SpanReprState ℚ)) :=
  ⟨by decide,
    C7_diff_sum_forward st1 (fun _ p _ => (p : ℚ)) (fun _ => 0) (fun _ => 1) 0 0 (by decide)⟩

/-- C8: on a valid span, the span mask is 1 exactly at the in-span
positions, 0/1-valued everywhere, and its ones form the contiguous block
`Icc start end` of size `end - start + 1` within the row. -/
theorem C8_span_mask (start_ids end_ids : ℕ → ℕ) (seq_len b : ℕ)
    (h1 : start_ids b ≤ end_ids b) (h2 : end_ids b < seq_len) :
    (∀ p < seq_len, (get_span_mask start_ids end_ids seq_len b p : ℚ) = 1
        ↔ (start_ids b ≤ p ∧ p ≤ end_ids b))
    ∧ (∀ p < seq_len, (get_span_mask start_ids end_ids seq_len b p : ℚ) = 1
        ∨ (get_span_mask start_ids end_ids seq_len b p : ℚ) = 0)
    ∧ (Finset.range seq_len).filter
        (fun p => (get_span_mask start_ids end_ids seq_len b p : ℚ) = 1)
        = Finset.Icc (start_ids b) (end_ids b)
    ∧ ((Finset.range seq_len).filter
        (fun p => (get_span_mask start_ids end_ids seq_len b p : ℚ) = 1)).card
        = end_ids b - start_ids b + 1 := by
  have hmember : ∀ p, (get_span_mask start_ids end_ids seq_len b p : ℚ) = 1
      ↔ (start_ids b ≤ p ∧ p ≤ end_ids b) := by
    intro p
    unfold get_span_mask
    by_cases hp : start_ids b ≤ p ∧ p ≤ end_ids b <;> simp [hp]
  have hfilter : (Finset.range seq_len).filter
      (fun p => (get_span_mask start_ids end_ids seq_len b p : ℚ) = 1)
      = Finset.Icc (start_ids b) (end_ids b) := by
    ext p
    simp only [Finset.mem_filter, Finset.mem_range, Finset.mem_Icc, hmember p]
    omega
  refine ⟨fun p _ => hmember p, ?_, hfilter, ?_⟩
  · intro p _
    unfold get_span_mask
    by_cases hp : start_ids b ≤ p ∧ p ≤ end_ids b <;> simp [hp]
  · rw [hfilter, Nat.card_Icc]
    omega

/-- Witness for C8 on the span `[1, 2]` of a length-4 row. -/
theorem C8_span_mask_witness :
    (1 ≤ 2 ∧ 2 < 4)
    ∧ ((∀ p < 4, (get_span_mask (fun _ => 1) (fun _ => 2) 4 0 p : ℚ) = 1
          ↔ (1 ≤ p ∧ p ≤ 2))
      ∧ (∀ p < 4, (get_span_mask (fun _ => 1) (fun _ => 2) 4 0 p : ℚ) = 1
          ∨ (get_span_mask (fun _ => 1) (fun _ => 2) 4 0 p : ℚ) = 0)
      ∧ (Finset.range 4).filter
          (fun p => (get_span_mask (fun _ => 1) (fun _ => 2) 4 0 p : ℚ) = 1)
          = Finset.Icc 1 2
      ∧ ((Finset.range 4).filter
          (fun p => (get_span_mask (fun _ => 1) (fun _ => 2) 4 0 p : ℚ) = 1)).card
          = 2 - 1 + 1) :=
  ⟨⟨by decide, by decide⟩,
    C8_span_mask (fun _ => 1) (fun _ => 2) 4 0 (by decide) (by decide)⟩

/-- C5 counterexample: with the in-span token value `-2e10` (below the
`-1e10` masking floor) the out-of-span penalty entry wins the maximum, so
`MaxSpanRepr.forward` does not return the in-span maximum. -/
theorem C5_max_counterexample :
    MaxSpanRepr.forward (st1 : SpanReprState ℚ) belowFloorEnc 2
        (fun _ => 0) (fun _ => 0) 0 0
      ≠ (Finset.Icc 0 0).sup' (Finset.nonempty_Icc.mpr (le_refl 0))
          (fun p => SpanReprState.projected (st1 : SpanReprState ℚ) belowFloorEnc 0 p 0) := by
  have hL : MaxSpanRepr.forward (st1 : SpanReprState ℚ) belowFloorEnc 2
      (fun _ => 0) (fun _ => 0) 0 0 = -(10 ^ 10) := by
    simp [MaxSpanRepr.forward, reduce_max, List.range_succ, st1, belowFloorEnc,
      SpanReprState.projected, get_span_mask]
  have hR : (Finset.Icc 0 0).sup' (Finset.nonempty_Icc.mpr (le_refl 0))
      (fun p => SpanReprState.projected (st1 : SpanReprState ℚ) belowFloorEnc 0 p 0)
      = -(2 * 10 ^ 10) := by
    apply le_antisymm
    · apply Finset.sup'_le
      intro p hp
      have hp0 : p = 0 := by
        have := Finset.mem_Icc.mp hp
        omega
      subst hp0
      norm_num [st1, belowFloorEnc, SpanReprState.projected]
    · refine le_trans ?_
        (Finset.le_sup'
          (fun p => SpanReprState.projected (st1 : SpanReprState ℚ) belowFloorEnc 0 p 0)
          (Finset.mem_Icc.mpr ⟨le_refl 0, le_refl 0⟩))
      norm_num [st1, belowFloorEnc, SpanReprState.projected]
  rw [hL, hR]
  norm_num

/-- C5 (amended): on a valid span, and provided every (optionally
projected) in-span value is at least `-1e10` (the masking floor), the
forward output per channel is the maximum of the (optionally projected)
values over the inclusive span, the out-of-span `-1e10` penalty entries
never winning. -/
theorem C5_max_forward (st : SpanReprState ℚ) (enc : ℕ → ℕ → ℕ → ℚ)
    (seq_len : ℕ) (start_ids end_ids : ℕ → ℕ) (b d : ℕ)
    (h1 : start_ids b ≤ end_ids b) (h2 : end_ids b < seq_len)
    (h3 : ∀ p ∈ Finset.Icc (start_ids b) (end_ids b),
        -(10 ^ 10) ≤ st.projected enc b p d) :
    MaxSpanRepr.forward st enc seq_len start_ids end_ids b d
      = (Finset.Icc (start_ids b) (end_ids b)).sup'
          (Finset.nonempty_Icc.mpr h1) (fun p => st.projected enc b p d) := by
  have hn : 0 < seq_len := lt_of_le_of_lt (Nat.zero_le _) h2
  have hforward : MaxSpanRepr.forward st enc seq_len start_ids end_ids b d
      = reduce_max seq_len (fun p => if start_ids b ≤ p ∧ p ≤ end_ids b
          then st.projected enc b p d else -(10 ^ 10)) := by
    simp only [MaxSpanRepr.forward]
    congr 1
    funext p
    unfold get_span_mask
    by_cases hp : start_ids b ≤ p ∧ p ≤ end_ids b <;> simp [hp]
  rw [hforward, reduce_max_eq_sup' _ hn]
  apply le_antisymm
  · apply Finset.sup'_le
    intro p _
    by_cases hps : start_ids b ≤ p ∧ p ≤ end_ids b
    · rw [if_pos hps]
      exact Finset.le_sup' (fun p => st.projected enc b p d) (Finset.mem_Icc.mpr hps)
    · rw [if_neg hps]
      exact le_trans (h3 (start_ids b) (Finset.mem_Icc.mpr ⟨le_refl _, h1⟩))
        (Finset.le_sup' (fun p => st.projected enc b p d)
          (Finset.mem_Icc.mpr ⟨le_refl _, h1⟩))
  · apply Finset.sup'_le
    intro p hp
    have hpm := Finset.mem_Icc.mp hp
    have hpr : p ∈ Finset.range seq_len :=
      Finset.mem_range.mpr (lt_of_le_of_lt hpm.2 h2)
    refine le_trans ?_
      (Finset.le_sup'
        (fun p => if start_ids b ≤ p ∧ p ≤ end_ids b
          then st.projected enc b p d else -(10 ^ 10)) hpr)
    rw [if_pos ⟨hpm.1, hpm.2⟩]

/-- Witness for the amended C5 on a single-token sequence of zeros. -/
theorem C5_max_forward_witness :
    (0 ≤ 0 ∧ 0 < 1
      ∧ ∀ p ∈ Finset.Icc 0 0,
          -(10 ^ 10) ≤ SpanReprState.projected (st1 : SpanReprState ℚ) (fun _ _ _ => 0) 0 p 0)
    ∧ MaxSpanRepr.forward (st1 : SpanReprState ℚ) (fun _ _ _ => 0) 1
        (fun _ => 0) (fun _ => 0) 0 0
      = (Finset.Icc 0 0).sup' (Finset.nonempty_Icc.mpr (le_refl 0))
          (fun p => SpanReprState.projected (st1 : SpanReprState ℚ) (fun _ _ _ => 0) 0 p 0) :=
  ⟨⟨le_refl 0, by decide, fun p _ => by norm_num [st1, SpanReprState.projected, zeroLin]⟩,
    C5_max_forward st1 (fun _ _ _ => 0) 1 (fun _ => 0) (fun _ => 0) 0 0 (le_refl 0)
      (by decide) (fun p _ => by norm_num [st1, SpanReprState.projected, zeroLin])⟩

/-- C9 counterexample: with a pass-through attention score and an
out-of-span token whose score is `1e10 + 20`, the `-1e10` additive penalty
leaves that position a logit of 20 against an in-span logit of 0, so its
softmax weight exceeds `1/2` — far above the claimed `1e-6` bound. -/
theorem C9_attn_counterexample :
    1 / 2 < AttnSpanRepr.attention_wts Real.exp (attnSt1 : AttnState ℝ) hugeScoreEnc 2
        (fun _ => 0) (fun _ => 0) 0 1
    ∧ ¬ (AttnSpanRepr.attention_wts Real.exp (attnSt1 : AttnState ℝ) hugeScoreEnc 2
        (fun _ => 0) (fun _ => 0) 0 1 < 1 / 10 ^ 6) := by
  have hw : AttnSpanRepr.attention_wts Real.exp (attnSt1 : AttnState ℝ) hugeScoreEnc 2
      (fun _ => 0) (fun _ => 0) 0 1
      = Real.exp 20 / (Real.exp 0 + Real.exp 20) := by
    simp [AttnSpanRepr.attention_wts, softmax, AttnSpanRepr.attn_logits, AttnSpanRepr.score,
      LinearParams.apply, get_span_mask, attnSt1, st1, oneLin, zeroLin, hugeScoreEnc,
      SpanReprState.projected, SpanReprState.pooled_dim, Finset.sum_range_succ]
  have hE : (21 : ℝ) ≤ Real.exp 20 := by
    have := Real.add_one_le_exp (20 : ℝ)
    linarith
  rw [hw, Real.exp_zero]
  constructor
  · rw [div_lt_div_iff₀ (by norm_num) (by positivity)]
    linarith
  · intro hc
    rw [div_lt_div_iff₀ (by positivity) (by norm_num)] at hc
    have h6 : (10 : ℝ) ^ 6 = 1000000 := by norm_num
    rw [h6] at hc
    linarith

/-- C9 (amended): on a valid span the attention weights always sum to 1
across the full sequence axis and the forward output is always the
weighted sum of the (optionally projected) token vectors under those
weights; provided additionally that the learned per-position scores are
bounded by `1e9` in absolute value (so that no score gap can overcome the
`-1e10` mask penalty), every out-of-span weight is below `1e-6`. -/
theorem C9_attn_weights (st : AttnState ℝ) (enc : ℕ → ℕ → ℕ → ℝ)
    (seq_len : ℕ) (start_ids end_ids : ℕ → ℕ) (b : ℕ)
    (h1 : start_ids b ≤ end_ids b) (h2 : end_ids b < seq_len) :
    (∑ p in Finset.range seq_len,
        AttnSpanRepr.attention_wts Real.exp st enc seq_len start_ids end_ids b p = 1)
    ∧ ((∀ p < seq_len, |AttnSpanRepr.score st enc b p| ≤ 10 ^ 9) →
        ∀ p < seq_len, p ∉ Finset.Icc (start_ids b) (end_ids b) →
          AttnSpanRepr.attention_wts Real.exp st enc seq_len start_ids end_ids b p
            < 1 / 10 ^ 6)
    ∧ (∀ d, AttnSpanRepr.forward Real.exp st enc seq_len start_ids end_ids b d
        = ∑ p in Finset.range seq_len,
            AttnSpanRepr.attention_wts Real.exp st enc seq_len start_ids end_ids b p *
              st.toSpanReprState.projected enc b p d) := by
  set L := AttnSpanRepr.attn_logits st enc seq_len start_ids end_ids b with hLdef
  have hn : 0 < seq_len := lt_of_le_of_lt (Nat.zero_le _) h2
  have hSpos : 0 < ∑ q in Finset.range seq_len, Real.exp (L q) :=
    Finset.sum_pos (fun q _ => Real.exp_pos _) ⟨0, Finset.mem_range.mpr hn⟩
  have hwts : ∀ p, AttnSpanRepr.attention_wts Real.exp st enc seq_len start_ids end_ids b p
      = Real.exp (L p) / ∑ q in Finset.range seq_len, Real.exp (L q) := fun p => rfl
  refine ⟨?_, ?_, fun d => rfl⟩
  · rw [Finset.sum_congr rfl (fun p _ => hwts p), ← Finset.sum_div,
      div_self (ne_of_gt hSpos)]
  · intro hsc p hp hpn
    rw [hwts p]
    have hmask : (get_span_mask start_ids end_ids seq_len b p : ℝ) = 0 := by
      unfold get_span_mask
      rw [if_neg]
      intro hc
      exact hpn (Finset.mem_Icc.mpr hc)
    have hLp : L p = AttnSpanRepr.score st enc b p - 10 ^ 10 := by
      have h0 : L p = AttnSpanRepr.score st enc b p
          + (1 - (get_span_mask start_ids end_ids seq_len b p : ℝ)) * (-(10 ^ 10)) := rfl
      rw [h0, hmask]
      ring
    have hmask_s : (get_span_mask start_ids end_ids seq_len b (start_ids b) : ℝ) = 1 := by
      unfold get_span_mask
      rw [if_pos ⟨le_refl _, h1⟩]
    have hLs : L (start_ids b) = AttnSpanRepr.score st enc b (start_ids b) := by
      have h0 : L (start_ids b) = AttnSpanRepr.score st enc b (start_ids b)
          + (1 - (get_span_mask start_ids end_ids seq_len b (start_ids b) : ℝ)) * (-(10 ^ 10)) := rfl
      rw [h0, hmask_s]
      ring
    have hSge : Real.exp (L (start_ids b)) ≤ ∑ q in Finset.range seq_len, Real.exp (L q) :=
      Finset.single_le_sum (fun q _ => (Real.exp_pos _).le)
        (Finset.mem_range.mpr (lt_of_le_of_lt h1 h2))
    have hdiv : Real.exp (L p) / (∑ q in Finset.range seq_len, Real.exp (L q))
        ≤ Real.exp (L p) / Real.exp (L (start_ids b)) := by
      gcongr
    have harg : L p - L (start_ids b) ≤ -20 := by
      rw [hLp, hLs]
      have hb1 := hsc p hp
      have hb2 := hsc (start_ids b) (lt_of_le_of_lt h1 h2)
      rw [abs_le] at hb1 hb2
      have hnum : (2 : ℝ) * 10 ^ 9 - 10 ^ 10 ≤ -20 := by norm_num
      linarith [hb1.2, hb2.1]
    have hstep : Real.exp (L p) / Real.exp (L (start_ids b)) ≤ Real.exp (-20) := by
      rw [← Real.exp_sub]
      exact Real.exp_le_exp.mpr harg
    exact lt_of_le_of_lt (le_trans hdiv hstep) exp_neg_twenty_lt

/-- Witness for the amended C9 on a single-token sequence of zeros, whose
attention scores are all zero. -/
theorem C9_attn_weights_witness :
    (0 ≤ 0 ∧ 0 < 1)
    ∧ ((∑ p in Finset.range 1,
          AttnSpanRepr.attention_wts Real.exp (attnSt1 : AttnState ℝ) (fun _ _ _ => 0) 1
            (fun _ => 0) (fun _ => 0) 0 p = 1)
      ∧ ((∀ p < 1, |AttnSpanRepr.score (attnSt1 : AttnState ℝ) (fun _ _ _ => 0) 0 p| ≤ 10 ^ 9) →
          ∀ p < 1, p ∉ Finset.Icc 0 0 →
            AttnSpanRepr.attention_wts Real.exp (attnSt1 : AttnState ℝ) (fun _ _ _ => 0) 1
              (fun _ => 0) (fun _ => 0) 0 p < 1 / 10 ^ 6)
      ∧ (∀ d, AttnSpanRepr.forward Real.exp (attnSt1 : AttnState ℝ) (fun _ _ _ => 0) 1
            (fun _ => 0) (fun _ => 0) 0 d
          = ∑ p in Finset.range 1,
              AttnSpanRepr.attention_wts Real.exp (attnSt1 : AttnState ℝ) (fun _ _ _ => 0) 1
                (fun _ => 0) (fun _ => 0) 0 p *
                SpanReprState.projected (attnSt1 : AttnState ℝ).toSpanReprState
                  (fun _ _ _ => 0) 0 p d)) :=
  ⟨⟨le_refl 0, by decide⟩,
    C9_attn_weights attnSt1 (fun _ _ _ => 0) 1 (fun _ => 0) (fun _ => 0) 0 (le_refl 0)
      (by decide)⟩
